import Mathlib

/-!
Verification of the secure-feature layer of the API-database-Computer-parts
repository: the crypto helper module (js/crypto-utils.js, inlined in
README-secure-features.md) and the password-manager backend
(pm-server/server.js).  Shallow embedding: each JavaScript function is
translated to a Lean definition; the Web Crypto platform primitives
(PBKDF2, AES-GCM, ECDSA) that the helpers invoke as single opaque library
calls are modelled symbolically, recording exactly the inputs the source
passes to them.
-/

namespace CryptoUtils

/-- Byte strings are lists of naturals; a well-formed byte has value < 256
(the Uint8Array invariant). -/
abbrev Bytes := List Nat

/-! ### Base64 layer: b64 / ub64 from crypto-utils.js

Source: b64 applies btoa to String.fromCharCode spread over the bytes;
ub64 applies atob, splits the result into characters and maps charCodeAt
over them into a Uint8Array.

btoa base64-encodes the latin-1 string whose char codes are the bytes of
u8; atob inverts it, and charCodeAt recovers the bytes.  We embed the
RFC 4648 encoding that btoa/atob implement. -/

/-- The base64 alphabet map: sextet value (0..63) to character, as used by
btoa: A-Z, a-z, 0-9, then the two symbols. -/
def valToChar (n : Nat) : Char :=
  if n < 26 then Char.ofNat (65 + n)
  else if n < 52 then Char.ofNat (97 + (n - 26))
  else if n < 62 then Char.ofNat (48 + (n - 52))
  else if n = 62 then Char.ofNat 43
  else Char.ofNat 47

/-- Inverse alphabet map, as used by atob: character back to sextet value. -/
def charToVal (c : Char) : Nat :=
  if 65 ≤ c.toNat ∧ c.toNat ≤ 90 then c.toNat - 65
  else if 97 ≤ c.toNat ∧ c.toNat ≤ 122 then c.toNat - 97 + 26
  else if 48 ≤ c.toNat ∧ c.toNat ≤ 57 then c.toNat - 48 + 52
  else if c.toNat = 43 then 62
  else 63

/-- The padding character of base64 (code point 61). -/
def padChar : Char := Char.ofNat 61

/-- Base64 encoding of a byte list, three bytes to four characters, with
the = padding btoa emits on a trailing group of one or two bytes. -/
def b64Chars : List Nat → List Char
  | [] => []
  | [a] => [valToChar (a / 4), valToChar ((a % 4) * 16), padChar, padChar]
  | [a, b] => [valToChar (a / 4), valToChar ((a % 4) * 16 + b / 16),
               valToChar ((b % 16) * 4), padChar]
  | a :: b :: c :: rest =>
      valToChar (a / 4) :: valToChar ((a % 4) * 16 + b / 16) ::
      valToChar ((b % 16) * 4 + c / 64) :: valToChar (c % 64) :: b64Chars rest

/-- Base64 decoding back to bytes, four characters to three bytes, with
the atob handling of the two padded tail forms.  Inputs that are not a
well-formed base64 string (where atob would throw) decode their ragged
tail to nothing; only encoder outputs matter for the round-trip. -/
def ub64Chars : List Char → List Nat
  | c1 :: c2 :: c3 :: c4 :: rest =>
      let v1 := charToVal c1
      let v2 := charToVal c2
      if c3 = padChar then [v1 * 4 + v2 / 16]
      else
        let v3 := charToVal c3
        if c4 = padChar then [v1 * 4 + v2 / 16, (v2 % 16) * 16 + v3 / 4]
        else (v1 * 4 + v2 / 16) :: ((v2 % 16) * 16 + v3 / 4) ::
             ((v3 % 4) * 64 + charToVal c4) :: ub64Chars rest
  | _ => []

/-- crypto-utils.js b64: bytes to base64 string. -/
def b64 (u8 : Bytes) : String := String.mk (b64Chars u8)

/-- crypto-utils.js ub64: base64 string back to bytes. -/
def ub64 (s : String) : Bytes := ub64Chars s.data

/-- Decoding inverts the alphabet map on every sextet value. -/
theorem charToVal_valToChar : ∀ n, n < 64 → charToVal (valToChar n) = n := by
  decide

/-- No sextet value encodes to the padding character. -/
theorem valToChar_ne_padChar : ∀ n, n < 64 → valToChar n ≠ padChar := by
  decide

/-- Character-list level round trip: decoding the encoding of any list of
bytes returns the original list. -/
theorem ub64Chars_b64Chars (u : List Nat) (h : ∀ b ∈ u, b < 256) :
    ub64Chars (b64Chars u) = u := by
  induction u using b64Chars.induct with
  | case1 => rfl
  | case2 a =>
      have ha : a < 256 := h a (by simp)
      have h1 : a / 4 < 64 := by omega
      have h2 : (a % 4) * 16 < 64 := by omega
      simp only [b64Chars, ub64Chars, if_true,
        charToVal_valToChar _ h1, charToVal_valToChar _ h2, List.cons.injEq,
        and_true]
      omega
  | case3 a b =>
      have ha : a < 256 := h a (by simp)
      have hb : b < 256 := h b (by simp)
      have h1 : a / 4 < 64 := by omega
      have h2 : (a % 4) * 16 + b / 16 < 64 := by omega
      have h3 : (b % 16) * 4 < 64 := by omega
      simp only [b64Chars, ub64Chars]
      rw [if_neg (valToChar_ne_padChar _ h3)]
      simp only [if_true, charToVal_valToChar _ h1, charToVal_valToChar _ h2,
        charToVal_valToChar _ h3, List.cons.injEq, and_true]
      constructor
      · omega
      · omega
  | case4 a b c rest ih =>
      have ha : a < 256 := h a (by simp)
      have hb : b < 256 := h b (by simp)
      have hc : c < 256 := h c (by simp)
      have h1 : a / 4 < 64 := by omega
      have h2 : (a % 4) * 16 + b / 16 < 64 := by omega
      have h3 : (b % 16) * 4 + c / 64 < 64 := by omega
      have h4 : c % 64 < 64 := by omega
      have ih2 : ub64Chars (b64Chars rest) = rest := by
        refine ih ?_
        intro x hx
        exact h x (by simp [hx])
      simp only [b64Chars, ub64Chars]
      rw [if_neg (valToChar_ne_padChar _ h3), if_neg (valToChar_ne_padChar _ h4)]
      simp only [charToVal_valToChar _ h1, charToVal_valToChar _ h2,
        charToVal_valToChar _ h3, charToVal_valToChar _ h4, ih2,
        List.cons.injEq, and_true]
      refine ⟨by omega, by omega, by omega⟩

/-! ### Web Crypto platform model

crypto-utils.js calls crypto.subtle with fixed parameters.  The platform
primitives are modelled symbolically: a PBKDF2 derivation is represented
by the exact tuple of inputs the source passes to deriveKey / deriveBits
(password, salt, iteration count, hash, output length).  PBKDF2 is a
deterministic function of this tuple, and, with SHA-256 and a 256-bit
output, deriveBits and deriveKey over the same tuple yield the same raw
256-bit key material regardless of the algorithm the derived key is bound
to; the model therefore identifies derived key material exactly when the
derivation tuples coincide. -/

/-- Symbolic raw key material: the PBKDF2 output identified by the inputs
of the derivation that produced it. -/
structure KeyMaterial where
  password : Bytes
  salt : Bytes
  iterations : Nat
  hashName : String
  lengthBits : Nat
  deriving DecidableEq

/-- A Web Crypto CryptoKey: the algorithm it is bound to, its underlying
raw key material, its extractable flag and its usage list. -/
structure CryptoKey where
  algorithm : String
  material : KeyMaterial
  extractable : Bool
  usages : List String
  deriving DecidableEq

/-- crypto-utils.js pbkdf2Key: derives a non-extractable AES-GCM-256 key
from (password, salt) with PBKDF2-HMAC-SHA-256. -/
def pbkdf2Key (password : Bytes) (salt : Bytes) (iterations : Nat)
    (usage : List String) : CryptoKey :=
  ⟨"AES-GCM", ⟨password, salt, iterations, "SHA-256", 256⟩, false, usage⟩

/-- crypto-utils.js pbkdf2Bits: derives 256 raw bits from (password, salt)
with PBKDF2-HMAC-SHA-256; used by the pages as the stored verifier. -/
def pbkdf2Bits (password : Bytes) (salt : Bytes) (iterations : Nat) :
    KeyMaterial :=
  ⟨password, salt, iterations, "SHA-256", 256⟩

/-- Result of crypto-utils.js deriveEncAndMac: an AES-GCM key and an HMAC
key. -/
structure EncAndMac where
  aesKey : CryptoKey
  macKey : CryptoKey
  deriving DecidableEq

/-- crypto-utils.js deriveEncAndMac: two deriveKey calls sharing the one
params object { name: PBKDF2, salt, iterations, hash: SHA-256 }, one bound
to AES-GCM length 256 and one bound to HMAC-SHA-256 length 256. -/
def deriveEncAndMac (password : Bytes) (salt : Bytes) (iterations : Nat) :
    EncAndMac :=
  ⟨⟨"AES-GCM", ⟨password, salt, iterations, "SHA-256", 256⟩, false,
    ["encrypt", "decrypt"]⟩,
   ⟨"HMAC-SHA-256", ⟨password, salt, iterations, "SHA-256", 256⟩, false,
    ["sign", "verify"]⟩⟩

/-- crypto-utils.js randomBytes: fills an n-byte array from the platform
CSPRNG crypto.getRandomValues.  The entropy source is made explicit as a
function rnd from byte index to raw draw; each byte is a value below
256. -/
def randomBytes (rnd : Nat → Nat) (n : Nat) : Bytes :=
  (List.range n).map (fun i => rnd i % 256)

/-- Symbolic AES-GCM ciphertext-with-tag, as produced by
crypto.subtle.encrypt with an AES-GCM parameter block: it determines, and
its tag authenticates, the key, the IV and the plaintext that produced
it. -/
structure GcmSealed where
  key : CryptoKey
  iv : Bytes
  plaintext : Bytes
  deriving DecidableEq

/-- Typed failure of a Web Crypto operation: crypto.subtle.decrypt rejects
with an OperationError when GCM tag verification fails. -/
inductive CryptoError where
  | operationError
  deriving DecidableEq

/-- JavaScript runtime exception raised before any crypto runs: reading an
identifier that is not in scope raises a ReferenceError naming it. -/
inductive JsError where
  | referenceError (name : String)
  deriving DecidableEq

/-- Vault blob returned by aesGcmEncryptBytes: the fresh IV and the sealed
ciphertext. -/
structure VaultBlob where
  iv : Bytes
  ciphertext : GcmSealed
  deriving DecidableEq

/-- crypto-utils.js aesGcmEncryptBytes: draws a fresh 12-byte IV from
randomBytes, authenticated-encrypts the bytes under the key with that IV,
and returns the pair { iv, ciphertext }.  The per-call entropy source rnd
is passed explicitly. -/
def aesGcmEncryptBytes (rnd : Nat → Nat) (bytes : Bytes) (key : CryptoKey) :
    VaultBlob :=
  let iv := randomBytes rnd 12
  ⟨iv, ⟨key, iv, bytes⟩⟩

/-- crypto-utils.js aesGcmDecryptBytes: authenticated decryption.  The GCM
tag verifies exactly when the supplied key and IV are the ones the sealed
blob was produced under; otherwise crypto.subtle.decrypt rejects with
OperationError and releases no plaintext. -/
def aesGcmDecryptBytes (iv : Bytes) (ct : GcmSealed) (key : CryptoKey) :
    Except CryptoError Bytes :=
  if ct.key = key ∧ ct.iv = iv then Except.ok ct.plaintext
  else Except.error CryptoError.operationError

/-- crypto-utils.js aesGcmEncryptJSON.  Its body is
  const ivB = ub64(iv); const ctB = ub64(ciphertext);
  const pt = await crypto.subtle.decrypt({name: AES-GCM, iv: ivB}, key, ctB);
  return JSON.parse(dec.decode(pt));
The identifiers iv and ciphertext are neither parameters (the parameters
are obj and key) nor bound anywhere at module scope in crypto-utils.js, so
the first statement of the body raises ReferenceError before any
cryptographic call: every invocation rejects. -/
def aesGcmEncryptJSON (obj : String) (key : CryptoKey) :
    Except JsError VaultBlob :=
  Except.error (JsError.referenceError "iv is not defined")

/-! ### ECDSA P-256 sign/verify model

The signing primitive is modelled symbolically at the level of its
interface contract: a key pair is identified by the randomness of
generateKey, a genuine signature determines the signing key pair and the
exact bytes signed, and any other byte string presented as a signature is
malformed.  crypto.subtle.verify returns a boolean promise and does not
throw on malformed signature bytes. -/

/-- An ECDSA P-256 private key, identified by the key pair it belongs
to. -/
structure EcdsaPrivateKey where
  keyId : Nat
  deriving DecidableEq

/-- An ECDSA P-256 public key, identified by the key pair it belongs
to. -/
structure EcdsaPublicKey where
  keyId : Nat
  deriving DecidableEq

/-- Candidate signature bytes handed to verification: either the genuine
signature of some data under some key pair, or any other (malformed) byte
string. -/
inductive SignatureBytes where
  | genuine (keyId : Nat) (data : Bytes)
  | malformed (raw : Bytes)
  deriving DecidableEq

/-- crypto-utils.js ecdsaSign: crypto.subtle.sign with ECDSA-SHA-256 over
the data bytes under the private key. -/
def ecdsaSign (privateKey : EcdsaPrivateKey) (dataBytes : Bytes) :
    SignatureBytes :=
  SignatureBytes.genuine privateKey.keyId dataBytes

/-- crypto-utils.js ecdsaVerify: crypto.subtle.verify with ECDSA-SHA-256.
Returns a boolean for every input, true exactly on the genuine signature
of the given bytes under the matching key pair. -/
def ecdsaVerify (publicKey : EcdsaPublicKey) (dataBytes : Bytes)
    (signature : SignatureBytes) : Bool :=
  match signature with
  | SignatureBytes.genuine k d => k == publicKey.keyId && d == dataBytes
  | SignatureBytes.malformed _ => false

end CryptoUtils

namespace PMServer

/-! ### pm-server/server.js: the Identity Store routes

The backend keeps one JSON object keyed by username (users.json); each
route loads it, validates the request body, possibly writes one entry and
saves.  The object is embedded as an association list keyed by username;
JavaScript property read users[u] is getUser (first match), property write
users[u] = r is setUser (replace the binding, or append a fresh one).
Body fields destructured from req.body are Option-valued: none models an
absent field.  The guard !x on a string field is true for an absent field
and for the empty string (both falsy); an object field such as vault is
truthy whenever present. -/

/-- Vault value as the API stores it: the { iv, ciphertext } JSON object
the client produced; the server never inspects it. -/
structure VaultJson where
  iv : String
  ciphertext : String
  deriving DecidableEq

/-- One users.json record: { salt, verifier, vault }. -/
structure UserRecord where
  salt : String
  verifier : String
  vault : VaultJson
  deriving DecidableEq

/-- The users.json object: an association list keyed by username. -/
abbrev Users := List (String × UserRecord)

/-- Response of a route: res.json({ok:true}), res.json(record), or
res.status(s).json({error: msg}). -/
inductive Resp where
  | ok
  | jsonRecord (r : UserRecord)
  | err (status : Nat) (msg : String)
  deriving DecidableEq

/-- JavaScript property read users[u]: the first binding of u, if any. -/
def getUser : Users → String → Option UserRecord
  | [], _ => none
  | (k, r) :: rest, u => if k = u then some r else getUser rest u

/-- JavaScript property write users[u] = r: replaces the first binding of
u, or appends one if u is absent. -/
def setUser : Users → String → UserRecord → Users
  | [], u, r => [(u, r)]
  | (k, v) :: rest, u, r =>
      if k = u then (u, r) :: rest else (k, v) :: setUser rest u r

/-- Body of POST /register. -/
structure RegisterReq where
  username : Option String
  salt : Option String
  verifier : Option String
  vault : Option VaultJson
  deriving DecidableEq

/-- Body of POST /login. -/
structure LoginReq where
  username : Option String
  deriving DecidableEq

/-- Body of POST /updateVault. -/
structure UpdateVaultReq where
  username : Option String
  vault : Option VaultJson
  deriving DecidableEq

/-- POST /register from pm-server/server.js: 400 when any of username,
salt, verifier, vault is falsy; 409 when users[username] exists; otherwise
stores users[username] = { salt, verifier, vault } and answers ok. -/
def register (users : Users) (req : RegisterReq) : Resp × Users :=
  match req.username, req.salt, req.verifier, req.vault with
  | some u, some s, some v, some vl =>
      if u = "" ∨ s = "" ∨ v = "" then (Resp.err 400 "Missing fields", users)
      else if (getUser users u).isSome then (Resp.err 409 "User exists", users)
      else (Resp.ok, setUser users u ⟨s, v, vl⟩)
  | _, _, _, _ => (Resp.err 400 "Missing fields", users)

/-- POST /login from pm-server/server.js: 400 when username is falsy, 404
when unknown, otherwise returns the stored record; never writes. -/
def login (users : Users) (req : LoginReq) : Resp × Users :=
  match req.username with
  | some u =>
      if u = "" then (Resp.err 400 "Missing username", users)
      else
        match getUser users u with
        | none => (Resp.err 404 "No such user", users)
        | some r => (Resp.jsonRecord r, users)
  | none => (Resp.err 400 "Missing username", users)

/-- POST /updateVault from pm-server/server.js: 400 when username or vault
is falsy, 404 when unknown, otherwise users[username].vault = vault (salt
and verifier of the record are untouched) and answers ok. -/
def updateVault (users : Users) (req : UpdateVaultReq) : Resp × Users :=
  match req.username, req.vault with
  | some u, some vl =>
      if u = "" then (Resp.err 400 "Missing fields", users)
      else
        match getUser users u with
        | none => (Resp.err 404 "No such user", users)
        | some r => (Resp.ok, setUser users u ⟨r.salt, r.verifier, vl⟩)
  | _, _ => (Resp.err 400 "Missing fields", users)

/-- Some register-body field is absent. -/
def missingRegisterField (req : RegisterReq) : Prop :=
  req.username = none ∨ req.salt = none ∨ req.verifier = none ∨
    req.vault = none

instance (req : RegisterReq) : Decidable (missingRegisterField req) := by
  unfold missingRegisterField
  infer_instance

/-- Property write then read at the written key returns the written
record. -/
theorem getUser_setUser_self (us : Users) (u : String) (r : UserRecord) :
    getUser (setUser us u r) u = some r := by
  induction us with
  | nil => simp [setUser, getUser]
  | cons hd rest ih =>
      obtain ⟨k, v⟩ := hd
      by_cases h : k = u
      · simp [setUser, getUser, h]
      · simp [setUser, getUser, h, ih]

/-- Property write at key u leaves every other key unchanged. -/
theorem getUser_setUser_ne (us : Users) (u w : String) (r : UserRecord)
    (h : w ≠ u) : getUser (setUser us u r) w = getUser us w := by
  have h2 : u ≠ w := Ne.symm h
  induction us with
  | nil => simp [setUser, getUser, h2]
  | cons hd rest ih =>
      obtain ⟨k, v⟩ := hd
      by_cases hk : k = u
      · subst hk
        simp [setUser, getUser, h2]
      · simp [setUser, getUser, hk, ih]

end PMServer

namespace CryptoUtils

/-- C1: the spec claims decryptVault (encryptVault E k) k = E.  In the
source, the vault-entry encryptor aesGcmEncryptJSON raises ReferenceError
on every call (its body reads the unbound identifiers iv and ciphertext),
so the encrypt step never yields a vault and the claimed round trip is
unrealizable; the underlying byte-level primitives do round-trip:
decrypting the blob produced by aesGcmEncryptBytes with the same key
returns the plaintext. -/
theorem c1_encryptJSON_reference_error (obj : String) (key : CryptoKey)
    (rnd : Nat → Nat) (bytes : Bytes) :
    aesGcmEncryptJSON obj key
      = Except.error (JsError.referenceError "iv is not defined")
    ∧ aesGcmDecryptBytes (aesGcmEncryptBytes rnd bytes key).iv
        (aesGcmEncryptBytes rnd bytes key).ciphertext key
      = Except.ok bytes := by
  constructor
  · rfl
  · simp [aesGcmEncryptBytes, aesGcmDecryptBytes]

/-- C2: the claim states that the verifier from pbkdf2Bits differs from
the raw key material underlying the encryption key from pbkdf2Key.  Both
are PBKDF2-HMAC-SHA-256 over the same password, salt and iteration count
with a 256-bit output, so the verifier is byte-for-byte the raw AES key
material: the claimed key separation does not hold in the source. -/
theorem c2_verifier_equals_key_material (password salt : Bytes)
    (iterations : Nat) (usage : List String) :
    pbkdf2Bits password salt iterations
      = (pbkdf2Key password salt iterations usage).material := rfl

/-- C3: the claim states that deriveEncAndMac rests on two independent
derivations whose raw key material differs.  The two deriveKey calls share
one PBKDF2 parameter block (same password, salt, iterations, hash) and
both derive 256 bits, so the AES key and the HMAC key have identical raw
key material: the claimed key separation does not hold in the source. -/
theorem c3_enc_and_mac_same_material (password salt : Bytes)
    (iterations : Nat) :
    (deriveEncAndMac password salt iterations).aesKey.material
      = (deriveEncAndMac password salt iterations).macKey.material := rfl

/-- C4: on any vault and key under which GCM tag verification fails
(sealed under a different key or a different IV), aesGcmDecryptBytes
returns the distinct OperationError failure and never a plaintext. -/
theorem c4_decrypt_fails_closed (iv : Bytes) (ct : GcmSealed)
    (key : CryptoKey) (h : ¬(ct.key = key ∧ ct.iv = iv)) :
    aesGcmDecryptBytes iv ct key = Except.error CryptoError.operationError
    ∧ ∀ pt, aesGcmDecryptBytes iv ct key ≠ Except.ok pt := by
  have he : aesGcmDecryptBytes iv ct key
      = Except.error CryptoError.operationError := by
    unfold aesGcmDecryptBytes
    rw [if_neg h]
  refine ⟨he, fun pt hc => ?_⟩
  rw [he] at hc
  cases hc

/-- C4 witness: decrypting a blob sealed under one derived key with a key
derived from a different password fails closed. -/
theorem c4_decrypt_fails_closed_witness :
    aesGcmDecryptBytes [0, 0, 0, 0, 0, 0, 0, 0, 0, 0, 0, 0]
      ⟨pbkdf2Key [1] [2] 150000 ["encrypt", "decrypt"],
        [0, 0, 0, 0, 0, 0, 0, 0, 0, 0, 0, 0], [7, 7]⟩
      (pbkdf2Key [9] [2] 150000 ["encrypt", "decrypt"])
      = Except.error CryptoError.operationError :=
  (c4_decrypt_fails_closed [0, 0, 0, 0, 0, 0, 0, 0, 0, 0, 0, 0]
    ⟨pbkdf2Key [1] [2] 150000 ["encrypt", "decrypt"],
      [0, 0, 0, 0, 0, 0, 0, 0, 0, 0, 0, 0], [7, 7]⟩
    (pbkdf2Key [9] [2] 150000 ["encrypt", "decrypt"]) (by decide)).1

/-- C5: every call of aesGcmEncryptBytes draws its IV fresh from the
CSPRNG: the returned IV is exactly the 12-byte draw of that call, it has
length 12, and two calls whose draws differ carry different IVs (the IV is
never a counter and never reused while the draws are distinct). -/
theorem c5_fresh_iv (rnd rnd2 : Nat → Nat) (bytes bytes2 : Bytes)
    (key key2 : CryptoKey) :
    (aesGcmEncryptBytes rnd bytes key).iv = randomBytes rnd 12
    ∧ (aesGcmEncryptBytes rnd bytes key).iv.length = 12
    ∧ (randomBytes rnd 12 ≠ randomBytes rnd2 12 →
        (aesGcmEncryptBytes rnd bytes key).iv
          ≠ (aesGcmEncryptBytes rnd2 bytes2 key2).iv) := by
  refine ⟨rfl, ?_, fun h => ?_⟩
  · simp [aesGcmEncryptBytes, randomBytes]
  · simpa [aesGcmEncryptBytes] using h

/-- C5 witness: two calls whose CSPRNG draws differ produce different
IVs. -/
theorem c5_fresh_iv_witness :
    (aesGcmEncryptBytes (fun i => i) [1]
        (pbkdf2Key [1] [2] 150000 ["encrypt", "decrypt"])).iv
    ≠ (aesGcmEncryptBytes (fun _ => 0) [1]
        (pbkdf2Key [1] [2] 150000 ["encrypt", "decrypt"])).iv :=
  (c5_fresh_iv (fun i => i) (fun _ => 0) [1] [1]
    (pbkdf2Key [1] [2] 150000 ["encrypt", "decrypt"])
    (pbkdf2Key [1] [2] 150000 ["encrypt", "decrypt"])).2.2 (by decide)

/-- C6: ecdsaVerify is a total boolean predicate (so it never throws, also
on malformed signature bytes), and it returns true exactly on the genuine
signature of the given bytes under the key pair matching the public
key. -/
theorem c6_verify_total_and_exact (publicKey : EcdsaPublicKey)
    (dataBytes : Bytes) (signature : SignatureBytes) :
    (ecdsaVerify publicKey dataBytes signature = true
      ∨ ecdsaVerify publicKey dataBytes signature = false)
    ∧ (ecdsaVerify publicKey dataBytes signature = true ↔
        ∃ privateKey : EcdsaPrivateKey,
          privateKey.keyId = publicKey.keyId
          ∧ signature = ecdsaSign privateKey dataBytes) := by
  constructor
  · cases hb : ecdsaVerify publicKey dataBytes signature
    · right; rfl
    · left; rfl
  · cases signature with
    | genuine k d =>
        simp only [ecdsaVerify, ecdsaSign, Bool.and_eq_true, beq_iff_eq,
          SignatureBytes.genuine.injEq]
        constructor
        · rintro ⟨hk, hd⟩
          exact ⟨⟨k⟩, hk, rfl, hd⟩
        · rintro ⟨priv, hpk, hk, hd⟩
          exact ⟨by rw [hk, hpk], hd⟩
    | malformed raw =>
        simp [ecdsaVerify, ecdsaSign]

/-- C10: decoding the base64 string produced by b64 returns the original
byte array: ub64 (b64 u) = u for every list of bytes. -/
theorem c10_base64_roundtrip (u : Bytes) (h : ∀ b ∈ u, b < 256) :
    ub64 (b64 u) = u :=
  ub64Chars_b64Chars u h

/-- C10 witness: the round trip on a concrete byte array. -/
theorem c10_base64_roundtrip_witness :
    ub64 (b64 [0, 77, 255, 1]) = [0, 77, 255, 1] :=
  c10_base64_roundtrip [0, 77, 255, 1] (by decide)

end CryptoUtils

namespace PMServer

/-- Register either leaves the database untouched or answers ok. -/
theorem register_write_or_ok (users : Users) (req : RegisterReq) :
    (register users req).2 = users ∨ (register users req).1 = Resp.ok := by
  obtain ⟨ou, os, ov, ovl⟩ := req
  cases ou <;> cases os <;> cases ov <;> cases ovl <;>
    simp only [register] <;>
    try (left; trivial)
  split
  · left; rfl
  · split
    · left; rfl
    · right; rfl

/-- Login never writes to the database. -/
theorem login_preserves_db (users : Users) (req : LoginReq) :
    (login users req).2 = users := by
  obtain ⟨ou⟩ := req
  cases ou
  · rfl
  · simp only [login]
    split
    · rfl
    · split <;> rfl

/-- UpdateVault either leaves the database untouched or answers ok. -/
theorem updateVault_write_or_ok (users : Users) (req : UpdateVaultReq) :
    (updateVault users req).2 = users
      ∨ (updateVault users req).1 = Resp.ok := by
  obtain ⟨ou, ovl⟩ := req
  cases ou <;> cases ovl <;>
    simp only [updateVault] <;>
    try (left; trivial)
  split
  · left; rfl
  · split
    · left; rfl
    · right; rfl

/-- C7: POST /register answers 400 Missing fields on any body with an
absent field, 409 User exists when the username is already registered, and
stores the record { salt, verifier, vault } under the username exactly
when all fields are present (and non-empty, the JavaScript falsy check)
and the username is fresh. -/
theorem c7_register_validation (users : Users) (req : RegisterReq)
    (u s v : String) (vl : VaultJson)
    (hu : u ≠ "") (hs : s ≠ "") (hv : v ≠ "") :
    (missingRegisterField req →
        register users req = (Resp.err 400 "Missing fields", users))
    ∧ ((getUser users u).isSome = true →
        register users ⟨some u, some s, some v, some vl⟩
          = (Resp.err 409 "User exists", users))
    ∧ ((getUser users u).isSome = false →
        register users ⟨some u, some s, some v, some vl⟩
          = (Resp.ok, setUser users u ⟨s, v, vl⟩)
        ∧ getUser (register users ⟨some u, some s, some v, some vl⟩).2 u
          = some ⟨s, v, vl⟩) := by
  refine ⟨?_, ?_, ?_⟩
  · intro hm
    obtain ⟨ou, os, ov, ovl⟩ := req
    cases ou <;> cases os <;> cases ov <;> cases ovl <;>
      simp_all [register, missingRegisterField]
  · intro hdup
    simp only [register]
    rw [if_neg (by simp [hu, hs, hv]), if_pos hdup]
  · intro hfresh
    have hred : register users ⟨some u, some s, some v, some vl⟩
        = (Resp.ok, setUser users u ⟨s, v, vl⟩) := by
      simp only [register]
      rw [if_neg (by simp [hu, hs, hv]), if_neg (by simp [hfresh])]
    refine ⟨hred, ?_⟩
    rw [hred]
    exact getUser_setUser_self users u ⟨s, v, vl⟩

/-- C7 witness: a body missing the username is rejected with 400, a
duplicate username with 409, and a fresh complete registration stores the
record. -/
theorem c7_register_validation_witness :
    register [] ⟨none, some "s1", some "v1", some ⟨"i1", "c1"⟩⟩
      = (Resp.err 400 "Missing fields", [])
    ∧ register [("alice", ⟨"s0", "v0", ⟨"i0", "c0"⟩⟩)]
        ⟨some "alice", some "s1", some "v1", some ⟨"i1", "c1"⟩⟩
      = (Resp.err 409 "User exists",
          [("alice", ⟨"s0", "v0", ⟨"i0", "c0"⟩⟩)])
    ∧ getUser
        (register [] ⟨some "alice", some "s1", some "v1",
          some ⟨"i1", "c1"⟩⟩).2 "alice"
      = some ⟨"s1", "v1", ⟨"i1", "c1"⟩⟩ := by
  refine ⟨?_, ?_, ?_⟩
  · exact (c7_register_validation []
      ⟨none, some "s1", some "v1", some ⟨"i1", "c1"⟩⟩
      "alice" "s1" "v1" ⟨"i1", "c1"⟩
      (by decide) (by decide) (by decide)).1 (Or.inl rfl)
  · exact (c7_register_validation [("alice", ⟨"s0", "v0", ⟨"i0", "c0"⟩⟩)]
      ⟨some "alice", some "s1", some "v1", some ⟨"i1", "c1"⟩⟩
      "alice" "s1" "v1" ⟨"i1", "c1"⟩
      (by decide) (by decide) (by decide)).2.1 (by decide)
  · exact ((c7_register_validation []
      ⟨some "alice", some "s1", some "v1", some ⟨"i1", "c1"⟩⟩
      "alice" "s1" "v1" ⟨"i1", "c1"⟩
      (by decide) (by decide) (by decide)).2.2 (by decide)).2

/-- C8: every request to /register, /login or /updateVault that ends in an
error response leaves the users database exactly as it was: all
validation and existence checks return before any write. -/
theorem c8_error_responses_preserve_db (users : Users) (r1 : RegisterReq)
    (r2 : LoginReq) (r3 : UpdateVaultReq) (s1 s2 s3 : Nat)
    (m1 m2 m3 : String) :
    ((register users r1).1 = Resp.err s1 m1 → (register users r1).2 = users)
    ∧ ((login users r2).1 = Resp.err s2 m2 → (login users r2).2 = users)
    ∧ ((updateVault users r3).1 = Resp.err s3 m3
        → (updateVault users r3).2 = users) := by
  refine ⟨fun h1 => ?_, fun h2 => ?_, fun h3 => ?_⟩
  · rcases register_write_or_ok users r1 with h | h
    · exact h
    · rw [h1] at h
      cases h
  · exact login_preserves_db users r2
  · rcases updateVault_write_or_ok users r3 with h | h
    · exact h
    · rw [h3] at h
      cases h

/-- C8 witness: concrete failing requests (missing fields, unknown user)
leave a concrete database unchanged. -/
theorem c8_error_responses_preserve_db_witness :
    (register [("alice", ⟨"s0", "v0", ⟨"i0", "c0"⟩⟩)]
        ⟨none, none, none, none⟩).2
      = [("alice", ⟨"s0", "v0", ⟨"i0", "c0"⟩⟩)]
    ∧ (login [("alice", ⟨"s0", "v0", ⟨"i0", "c0"⟩⟩)] ⟨some "bob"⟩).2
      = [("alice", ⟨"s0", "v0", ⟨"i0", "c0"⟩⟩)]
    ∧ (updateVault [("alice", ⟨"s0", "v0", ⟨"i0", "c0"⟩⟩)]
        ⟨some "bob", some ⟨"i9", "c9"⟩⟩).2
      = [("alice", ⟨"s0", "v0", ⟨"i0", "c0"⟩⟩)] := by
  have h := c8_error_responses_preserve_db
    [("alice", ⟨"s0", "v0", ⟨"i0", "c0"⟩⟩)]
    ⟨none, none, none, none⟩ ⟨some "bob"⟩ ⟨some "bob", some ⟨"i9", "c9"⟩⟩
    400 404 404 "Missing fields" "No such user" "No such user"
  exact ⟨h.1 (by decide), h.2.1 (by decide), h.2.2 (by decide)⟩

/-- C9: a successful updateVault for username u replaces only the vault
field of the record of u (its salt and verifier are the ones stored
before) and leaves the record of every other username unchanged. -/
theorem c9_updateVault_frame (users : Users) (u : String) (vl : VaultJson)
    (r : UserRecord) (hu : u ≠ "") (hr : getUser users u = some r) :
    (updateVault users ⟨some u, some vl⟩).1 = Resp.ok
    ∧ getUser (updateVault users ⟨some u, some vl⟩).2 u
        = some ⟨r.salt, r.verifier, vl⟩
    ∧ ∀ w, w ≠ u →
        getUser (updateVault users ⟨some u, some vl⟩).2 w
          = getUser users w := by
  have hred : updateVault users ⟨some u, some vl⟩
      = (Resp.ok, setUser users u ⟨r.salt, r.verifier, vl⟩) := by
    simp only [updateVault]
    rw [if_neg hu, hr]
  refine ⟨by rw [hred], ?_, ?_⟩
  · rw [hred]
    exact getUser_setUser_self users u ⟨r.salt, r.verifier, vl⟩
  · intro w hw
    rw [hred]
    exact getUser_setUser_ne users u w ⟨r.salt, r.verifier, vl⟩ hw

/-- C9 witness: updating the vault of alice keeps her salt and verifier
and the complete record of bob. -/
theorem c9_updateVault_frame_witness :
    getUser (updateVault
        [("alice", ⟨"s0", "v0", ⟨"i0", "c0"⟩⟩),
         ("bob", ⟨"s2", "v2", ⟨"i2", "c2"⟩⟩)]
        ⟨some "alice", some ⟨"i9", "c9"⟩⟩).2 "alice"
      = some ⟨"s0", "v0", ⟨"i9", "c9"⟩⟩
    ∧ getUser (updateVault
        [("alice", ⟨"s0", "v0", ⟨"i0", "c0"⟩⟩),
         ("bob", ⟨"s2", "v2", ⟨"i2", "c2"⟩⟩)]
        ⟨some "alice", some ⟨"i9", "c9"⟩⟩).2 "bob"
      = some ⟨"s2", "v2", ⟨"i2", "c2"⟩⟩ := by
  have h := c9_updateVault_frame
    [("alice", ⟨"s0", "v0", ⟨"i0", "c0"⟩⟩),
     ("bob", ⟨"s2", "v2", ⟨"i2", "c2"⟩⟩)]
    "alice" ⟨"i9", "c9"⟩ ⟨"s0", "v0", ⟨"i0", "c0"⟩⟩
    (by decide) (by decide)
  exact ⟨h.2.1, h.2.2 "bob" (by decide)⟩

end PMServer
